import Mathlib

/-!
Verification of the word-search solver (`puzzle.py`).

The core of the program is embedded shallowly:

* `Direction` / `DIRECTIONS`  — the fixed table `Puzzle.DIRECTIONS`, whose
  Python dict iterates its keys in insertion order N, NE, E, SE, S, SW, W, NW;
* `Puzzle.get_cell`           — bounds-checked cell lookup (`None` sentinel);
* `Puzzle.find_rest`          — the recursive remainder match along a direction;
* `Puzzle.find_word`          — the row-major scan with early return, or the
  "word not found" error;
* `Puzzle.solveWords` / `Puzzle.solve` — the dict comprehension over the word
  list followed by the `assert answers == self.answers` validation.

Words and grid rows are lists of characters; coordinates are integers, as in
the source (they may go negative while stepping).  A Python function that can
raise is embedded with `Except`.
-/

/-- The 8 compass directions, in the iteration (insertion) order of the
Python dict `Puzzle.DIRECTIONS`. -/
inductive Direction
  | N | NE | E | SE | S | SW | W | NW
deriving DecidableEq, Repr, Fintype

/-- `DIRECTIONS[d]["x"]` of the source. -/
def Direction.dx : Direction → Int
  | .N => 0 | .NE => 1 | .E => 1 | .SE => 1
  | .S => 0 | .SW => -1 | .W => -1 | .NW => -1

/-- `DIRECTIONS[d]["y"]` of the source. -/
def Direction.dy : Direction → Int
  | .N => -1 | .NE => -1 | .E => 0 | .SE => 1
  | .S => 1 | .SW => 1 | .W => 0 | .NW => -1

/-- The key of the direction in the Python dict. -/
def Direction.name : Direction → String
  | .N => "N" | .NE => "NE" | .E => "E" | .SE => "SE"
  | .S => "S" | .SW => "SW" | .W => "W" | .NW => "NW"

/-- Keys of `Puzzle.DIRECTIONS` in iteration order (Python dicts iterate in
insertion order). -/
def DIRECTIONS : List Direction :=
  [.N, .NE, .E, .SE, .S, .SW, .W, .NW]

/-- Position of a direction in the iteration order of `DIRECTIONS`. -/
def dirIndex : Direction → Nat
  | .N => 0 | .NE => 1 | .E => 2 | .SE => 3
  | .S => 4 | .SW => 5 | .W => 6 | .NW => 7

/-- The grid model: `self.rows`, a list of rows, each a list of cells. -/
structure Puzzle where
  rows : List (List Char)
deriving DecidableEq, Repr

/-- `Puzzle.size`: `len(self.rows)`. -/
def Puzzle.size (p : Puzzle) : Nat :=
  p.rows.length

/-- The grid is square: every row has length `size` (the loader-side
precondition `MalformedGrid` excludes everything else). -/
def Puzzle.IsSquare (p : Puzzle) : Prop :=
  ∀ r ∈ p.rows, r.length = p.rows.length

instance (p : Puzzle) : Decidable p.IsSquare := by
  unfold Puzzle.IsSquare; infer_instance

/-- `Puzzle.get_cell(x, y)`: `None` when any coordinate is out of range,
otherwise `self.rows[y][x]`. -/
def Puzzle.get_cell (p : Puzzle) (x y : Int) : Option Char :=
  if x < 0 ∨ y < 0 ∨ (p.size : Int) ≤ x ∨ (p.size : Int) ≤ y then
    none
  else
    (p.rows.get? y.toNat).bind fun r => r.get? x.toNat

/-- `Puzzle.find_rest(direction, x, y, rest)`: step by the direction's unit
vector once per character of `rest`, requiring each stepped-to cell to hold
the next character.  The Python function returns `True` or `None`; embedded
as `Bool`. -/
def Puzzle.find_rest (p : Puzzle) (d : Direction) (x y : Int) :
    List Char → Bool
  | [] => true
  | c :: rs =>
    match p.get_cell (x + d.dx) (y + d.dy) with
    | none => false
    | some cell =>
      if cell ≠ c then false else p.find_rest d (x + d.dx) (y + d.dy) rs

/-- The Location string `f"{direction} @ ({y + 1}, {x + 1})"` returned by
`find_word` for a match starting at 0-indexed column `x`, row `y`. -/
def locString (d : Direction) (x y : Nat) : String :=
  d.name ++ " @ (" ++ toString (y + 1) ++ ", " ++ toString (x + 1) ++ ")"

/-- Errors the core can raise. `wordNotFound` is
`Exception(f"word not found")` carrying the word; `indexError` is the
`IndexError` Python raises evaluating `word[0]` of an empty word. -/
inductive PuzzleError
  | wordNotFound (word : List Char)
  | indexError
deriving DecidableEq, Repr

/-- The row-major scan order of `find_word`: `(y, x)` pairs, `y` outer from
`range(size)`, `x` inner from `range(size)`. -/
def Puzzle.scan (p : Puzzle) : List (Nat × Nat) :=
  (List.range p.size).flatMap fun y => (List.range p.size).map fun x => (y, x)

/-- `Puzzle.find_word(word)`: scan cells in row-major order; at each cell whose
character equals `word[0]`, try the directions in table order and return the
Location of the first full match; raise "word not found" otherwise.  An empty
word makes Python evaluate `word[0]` at the first cell (an `IndexError`),
unless the grid is empty, in which case the loops never run. -/
def Puzzle.find_word (p : Puzzle) (word : List Char) :
    Except PuzzleError String :=
  match word with
  | [] =>
    if p.size = 0 then .error (.wordNotFound []) else .error .indexError
  | w0 :: rest =>
    match p.scan.findSome? (fun yx =>
        if p.get_cell yx.2 yx.1 = some w0 then
          (DIRECTIONS.find? fun d => p.find_rest d yx.2 yx.1 rest).map
            fun d => locString d yx.2 yx.1
        else none) with
    | some loc => .ok loc
    | none => .error (.wordNotFound (w0 :: rest))

/-- Dictionaries word ↦ Location are embedded as association lists in
insertion order. -/
abbrev Answers := List (List Char × String)

/-- Python dict lookup on the association list: the *last* binding of a key
wins, as in a dict built left to right. -/
def dictLookup : Answers → List Char → Option String
  | [], _ => none
  | (k', v) :: rest, k =>
    match dictLookup rest k with
    | some v' => some v'
    | none => if k' = k then some v else none

/-- Python dict equality `==`: the two maps agree on every key of either. -/
def dictEq (a b : Answers) : Bool :=
  (a.map Prod.fst ++ b.map Prod.fst).all fun k =>
    dictLookup a k = dictLookup b k

/-- The dict comprehension `{word: self.find_word(word) for word in words}`:
`find_word` is evaluated for each word in order and the first raised error
propagates. -/
def Puzzle.solveWords (p : Puzzle) : List (List Char) →
    Except PuzzleError Answers
  | [] => .ok []
  | w :: ws =>
    match p.find_word w with
    | .error e => .error e
    | .ok loc =>
      match p.solveWords ws with
      | .error e => .error e
      | .ok rest => .ok ((w, loc) :: rest)

/-- Errors out of `Puzzle.solve`: a propagated search error, or the failed
`assert answers == self.answers`. -/
inductive SolveError
  | search (e : PuzzleError)
  | validationMismatch
deriving DecidableEq, Repr

/-- `Puzzle.solve()`: build the answers dict, assert it equals the stored
answer key, and return it. -/
def Puzzle.solve (p : Puzzle) (words : List (List Char)) (key : Answers) :
    Except SolveError Answers :=
  match p.solveWords words with
  | .error e => .error (.search e)
  | .ok answers =>
    if dictEq answers key then .ok answers else .error .validationMismatch

/-- One candidate fully matches: the start cell holds the first letter and the
remainder matches walking in the direction. -/
def Puzzle.cellDirMatches (p : Puzzle) (w0 : Char) (rest : List Char)
    (x y : Nat) (d : Direction) : Bool :=
  (p.get_cell x y = some w0) && p.find_rest d x y rest

/-- All (start cell, direction) candidates in the order `find_word` tries
them: row-major over cells, then table order over directions. -/
def Puzzle.allCands (p : Puzzle) : List ((Nat × Nat) × Direction) :=
  p.scan.flatMap fun yx => DIRECTIONS.map fun d => (yx, d)

/-- The first fully matching (start cell, direction) candidate in scan order
— the pair the spec says `find_word` must report. -/
def Puzzle.firstMatch (p : Puzzle) (w0 : Char) (rest : List Char) :
    Option ((Nat × Nat) × Direction) :=
  p.allCands.find? fun c => p.cellDirMatches w0 rest c.1.2 c.1.1 c.2

/-- The example 3×3 grid of the spec: rows CAT / XXX / XXX. -/
def catPuzzle : Puzzle :=
  ⟨[['C', 'A', 'T'], ['X', 'X', 'X'], ['X', 'X', 'X']]⟩

/-! ### Bridging `find_word` with the candidate-order specification -/

lemma findSome?_dir (p : Puzzle) (w0 : Char) (rest : List Char)
    (yx : Nat × Nat) :
    (if p.get_cell yx.2 yx.1 = some w0 then
        (DIRECTIONS.find? fun d => p.find_rest d yx.2 yx.1 rest).map
          fun d => locString d yx.2 yx.1
      else none)
      = (DIRECTIONS.find? fun d => p.cellDirMatches w0 rest yx.2 yx.1 d).map
          fun d => locString d yx.2 yx.1 := by
  by_cases h : p.get_cell yx.2 yx.1 = some w0
  · rw [if_pos h]
    have : (fun d => p.cellDirMatches w0 rest yx.2 yx.1 d)
        = fun d => p.find_rest d yx.2 yx.1 rest := by
      funext d
      simp [Puzzle.cellDirMatches, h]
    rw [this]
  · rw [if_neg h]
    rw [List.find?_eq_none.mpr ?_]
    · rfl
    · intro d _
      simp [Puzzle.cellDirMatches, h]

lemma findSome?_find?_flatMap {α β γ : Type} (l : List α) (ds : List β)
    (q : α → β → Bool) (h : α → β → γ) :
    (l.findSome? fun a => (ds.find? (q a)).map (h a))
      = ((l.flatMap fun a => ds.map fun d => (a, d)).find?
          fun c => q c.1 c.2).map fun c => h c.1 c.2 := by
  induction l with
  | nil => rfl
  | cons a l ih =>
    have hcomp : ((fun c : α × β => q c.1 c.2) ∘ fun d => (a, d)) = q a := by
      funext d
      rfl
    rw [List.findSome?_cons, List.flatMap_cons, List.find?_append,
      List.find?_map, hcomp]
    cases hd : ds.find? (q a) with
    | some d => simp
    | none => simpa using ih

/-- `find_word` on a non-empty word returns the Location of the first fully
matching candidate, and the word-not-found error when there is none. -/
lemma Puzzle.find_word_cons (p : Puzzle) (w0 : Char) (rest : List Char) :
    p.find_word (w0 :: rest) =
      match p.firstMatch w0 rest with
      | some c => .ok (locString c.2 c.1.2 c.1.1)
      | none => .error (.wordNotFound (w0 :: rest)) := by
  show (match p.scan.findSome? (fun yx =>
        if p.get_cell yx.2 yx.1 = some w0 then
          (DIRECTIONS.find? fun d => p.find_rest d yx.2 yx.1 rest).map
            fun d => locString d yx.2 yx.1
        else none) with
    | some loc => (.ok loc : Except PuzzleError String)
    | none => .error (.wordNotFound (w0 :: rest))) = _
  simp only [findSome?_dir]
  rw [findSome?_find?_flatMap p.scan DIRECTIONS
    (fun yx d => p.cellDirMatches w0 rest yx.2 yx.1 d)
    (fun yx d => locString d yx.2 yx.1)]
  rw [show ((p.scan.flatMap fun yx => DIRECTIONS.map fun d => (yx, d)).find?
      fun c => p.cellDirMatches w0 rest c.1.2 c.1.1 c.2)
      = p.firstMatch w0 rest from rfl]
  cases hm : p.firstMatch w0 rest <;> simp

/-! ### Membership and bounds lemmas -/

lemma mem_DIRECTIONS (d : Direction) : d ∈ DIRECTIONS := by
  cases d <;> simp [DIRECTIONS]

lemma Puzzle.mem_scan (p : Puzzle) (y x : Nat) :
    (y, x) ∈ p.scan ↔ y < p.size ∧ x < p.size := by
  constructor
  · intro h
    simp only [Puzzle.scan, List.mem_flatMap, List.mem_map,
      List.mem_range] at h
    obtain ⟨y', hy', x', hx', heq⟩ := h
    obtain ⟨rfl, rfl⟩ := Prod.mk.injEq .. ▸ heq
    exact ⟨hy', hx'⟩
  · rintro ⟨hy, hx⟩
    simp only [Puzzle.scan, List.mem_flatMap, List.mem_map, List.mem_range]
    exact ⟨y, hy, x, hx, rfl⟩

lemma Puzzle.mem_allCands (p : Puzzle) (c : (Nat × Nat) × Direction) :
    c ∈ p.allCands ↔ c.1 ∈ p.scan := by
  constructor
  · intro h
    simp only [Puzzle.allCands, List.mem_flatMap, List.mem_map] at h
    obtain ⟨yx, hyx, d, _, rfl⟩ := h
    exact hyx
  · intro h
    simp only [Puzzle.allCands, List.mem_flatMap, List.mem_map]
    exact ⟨c.1, h, c.2, mem_DIRECTIONS c.2, rfl⟩

lemma Puzzle.get_cell_some (p : Puzzle) {x y : Int} {c : Char}
    (h : p.get_cell x y = some c) :
    0 ≤ x ∧ 0 ≤ y ∧ x < (p.size : Int) ∧ y < (p.size : Int) := by
  unfold Puzzle.get_cell at h
  split at h
  · cases h
  · rename_i hcond
    push_neg at hcond
    exact ⟨hcond.1, hcond.2.1, hcond.2.2.1, hcond.2.2.2⟩

lemma Puzzle.get_cell_eq_some (p : Puzzle) (x y : Int) (c : Char) :
    p.get_cell x y = some c ↔
      0 ≤ x ∧ x < (p.size : Int) ∧ 0 ≤ y ∧ y < (p.size : Int) ∧
        (p.rows.get? y.toNat).bind (fun r => r.get? x.toNat) = some c := by
  unfold Puzzle.get_cell
  split
  · rename_i hcond
    constructor
    · intro h
      cases h
    · rintro ⟨h1, h2, h3, h4, _⟩
      omega
  · rename_i hcond
    push_neg at hcond
    obtain ⟨h1, h2, h3, h4⟩ := hcond
    constructor
    · intro hb
      exact ⟨h1, h3, h2, h4, hb⟩
    · rintro ⟨_, _, _, _, hb⟩
      exact hb

/-! ### `find?` order lemmas -/

lemma find?_eq_some_of_unique {α : Type} (q : α → Bool) (a : α) :
    ∀ l : List α, a ∈ l → q a = true →
      (∀ b ∈ l, q b = true → b = a) → l.find? q = some a := by
  intro l
  induction l with
  | nil =>
    intro ha _ _
    cases ha
  | cons b l ih =>
    intro ha hq huniq
    by_cases hb : q b = true
    · have hba : b = a := huniq b (List.mem_cons_self b l) hb
      subst hba
      exact List.find?_cons_of_pos _ hb
    · rw [List.find?_cons_of_neg _ hb]
      apply ih
      · cases List.mem_cons.mp ha with
        | inl h =>
          subst h
          exact absurd hq hb
        | inr h => exact h
      · exact hq
      · intro c hc hqc
        exact huniq c (List.mem_cons_of_mem _ hc) hqc

set_option maxRecDepth 4000 in
/-- The direction `find?` returns is the earliest in table order among all
directions satisfying the predicate. -/
lemma dir_find?_min : ∀ (q : Direction → Bool) (d d' : Direction),
    DIRECTIONS.find? q = some d → q d' = true → dirIndex d ≤ dirIndex d' := by
  decide

lemma Puzzle.firstMatch_eq_findSome? (p : Puzzle) (w0 : Char)
    (rest : List Char) :
    p.firstMatch w0 rest
      = p.scan.findSome? fun yx =>
          (DIRECTIONS.find? fun d => p.cellDirMatches w0 rest yx.2 yx.1 d).map
            fun d => (yx, d) := by
  rw [findSome?_find?_flatMap p.scan DIRECTIONS
    (fun yx d => p.cellDirMatches w0 rest yx.2 yx.1 d) (fun yx d => (yx, d))]
  simp [Puzzle.firstMatch, Puzzle.allCands]

/-- At the cell `firstMatch` reports, the reported direction is what `find?`
over the direction table yields. -/
lemma Puzzle.firstMatch_dir {p : Puzzle} {w0 : Char} {rest : List Char}
    {y x : Nat} {d : Direction}
    (h : p.firstMatch w0 rest = some ((y, x), d)) :
    (DIRECTIONS.find? fun dd => p.cellDirMatches w0 rest x y dd) = some d := by
  rw [Puzzle.firstMatch_eq_findSome?] at h
  obtain ⟨yx, hyx, hmap⟩ := List.exists_of_findSome?_eq_some h
  rw [Option.map_eq_some'] at hmap
  obtain ⟨dd, hfind, heq⟩ := hmap
  injection heq with h1 h2
  subst h1
  subst h2
  exact hfind

/-! ### Example grids used as concrete instances -/

/-- 3×3 grid with 'A' surrounded by 'B' on all sides: the word AB matches in
all 8 directions from the centre. -/
def ringPuzzle : Puzzle :=
  ⟨[['B', 'B', 'B'], ['B', 'A', 'B'], ['B', 'B', 'B']]⟩

/-- 3×3 grid with DOG placed along the SE diagonal. -/
def dogPuzzle : Puzzle :=
  ⟨[['D', 'Z', 'Z'], ['Z', 'O', 'Z'], ['Z', 'Z', 'G']]⟩

/-- The first cell in row-major scan order holding a given character. -/
def Puzzle.firstCell (p : Puzzle) (w0 : Char) : Option (Nat × Nat) :=
  p.scan.find? fun yx => p.get_cell yx.2 yx.1 = some w0

/-! ### Claim theorems: the scan order of `find_word` -/

/-- C1: for a non-empty word present in the grid, `find_word` returns,
immediately, the first candidate in row-major cell order and direction table
order (N, NE, E, SE, S, SW, W, NW) that fully matches, encoded as
`"<DIR> @ (y+1, x+1)"` with the start cell's 1-indexed row before column. -/
theorem find_word_returns_first_match (p : Puzzle) (w0 : Char)
    (rest : List Char) (y x : Nat) (d : Direction)
    (h : p.firstMatch w0 rest = some ((y, x), d)) :
    p.find_word (w0 :: rest) = .ok (locString d x y) := by
  rw [p.find_word_cons, h]

theorem find_word_returns_first_match_witness :
    catPuzzle.find_word ['C', 'A', 'T'] = .ok (locString .E 0 0) :=
  find_word_returns_first_match catPuzzle 'C' ['A', 'T'] 0 0 .E (by decide)

/-- C4: when no start cell and direction fully match a non-empty word,
`find_word` raises the word-not-found error carrying the word, and never
returns a Location. -/
theorem find_word_absent_raises (p : Puzzle) (w0 : Char) (rest : List Char)
    (h : ∀ yx ∈ p.scan, ∀ d : Direction,
      p.cellDirMatches w0 rest yx.2 yx.1 d = false) :
    p.find_word (w0 :: rest) = .error (.wordNotFound (w0 :: rest)) := by
  have hnone : p.firstMatch w0 rest = none := by
    apply List.find?_eq_none.mpr
    intro c hc
    have hcs : c.1 ∈ p.scan := (p.mem_allCands c).mp hc
    simp [h c.1 hcs c.2]
  rw [p.find_word_cons, hnone]

theorem find_word_absent_raises_witness :
    ringPuzzle.find_word ['C', 'A', 'T']
      = .error (.wordNotFound ['C', 'A', 'T']) :=
  find_word_absent_raises ringPuzzle 'C' ['A', 'T'] (by decide)

/-- C6: when the word fully matches from the reported start cell in several
directions, the direction `find_word` reports is the one earliest in the
fixed table order N, NE, E, SE, S, SW, W, NW. -/
theorem find_word_direction_tie_break (p : Puzzle) (w0 : Char)
    (rest : List Char) (y x : Nat) (d d' : Direction)
    (h : p.firstMatch w0 rest = some ((y, x), d))
    (h' : p.cellDirMatches w0 rest x y d' = true) :
    p.find_word (w0 :: rest) = .ok (locString d x y) ∧
      dirIndex d ≤ dirIndex d' := by
  refine ⟨?_, ?_⟩
  · rw [p.find_word_cons, h]
  · exact dir_find?_min _ d d' (Puzzle.firstMatch_dir h) h'

theorem find_word_direction_tie_break_witness :
    ringPuzzle.find_word ['A', 'B'] = .ok (locString .N 1 1) ∧
      dirIndex .N ≤ dirIndex .SE :=
  find_word_direction_tie_break ringPuzzle 'A' ['B'] 1 1 .N .SE
    (by decide) (by decide)

/-- C7: round-trip placement — when a word's only full match in the grid is
direction `d` starting at 0-indexed column `x`, row `y`, `find_word` returns
exactly that direction with the 1-indexed row-first coordinates. -/
theorem find_word_round_trip (p : Puzzle) (w0 : Char) (rest : List Char)
    (y x : Nat) (d : Direction)
    (hm : p.cellDirMatches w0 rest x y d = true)
    (huniq : ∀ yx ∈ p.scan, ∀ d' : Direction,
      p.cellDirMatches w0 rest yx.2 yx.1 d' = true → yx = (y, x) ∧ d' = d) :
    p.find_word (w0 :: rest) = .ok (locString d x y) := by
  have hcell : p.get_cell x y = some w0 := by
    have := (Bool.and_eq_true _ _).mp hm
    exact of_decide_eq_true this.1
  have hb := p.get_cell_some hcell
  have hmem : ((y, x), d) ∈ p.allCands := by
    rw [p.mem_allCands]
    rw [p.mem_scan]
    constructor
    · exact_mod_cast hb.2.2.2
    · exact_mod_cast hb.2.2.1
  have hfm : p.firstMatch w0 rest = some ((y, x), d) := by
    apply find?_eq_some_of_unique _ _ _ hmem hm
    intro b hb' hq
    have := huniq b.1 ((p.mem_allCands b).mp hb') b.2 hq
    calc b = (b.1, b.2) := rfl
    _ = ((y, x), d) := by rw [this.1, this.2]
  rw [p.find_word_cons, hfm]

theorem find_word_round_trip_witness :
    dogPuzzle.find_word ['D', 'O', 'G'] = .ok (locString .SE 0 0) :=
  find_word_round_trip dogPuzzle 'D' ['O', 'G'] 0 0 .SE (by decide) (by decide)

lemma find?_flatMap_const {α : Type} (l : List α) (r : α → Bool) :
    ((l.flatMap fun a => DIRECTIONS.map fun d => (a, d)).find?
      fun c => r c.1) = (l.find? r).map fun a => (a, Direction.N) := by
  induction l with
  | nil => rfl
  | cons a l ih =>
    have hcomp : ((fun c : α × Direction => r c.1) ∘ fun d => (a, d))
        = fun _ => r a := by
      funext d
      rfl
    rw [List.flatMap_cons, List.find?_append, List.find?_map, hcomp]
    cases ha : r a with
    | true =>
      simp only [ha, List.find?_cons_of_pos _ ha]
      rfl
    | false =>
      have hna : ¬ r a = true := by simp [ha]
      simp only [ha, List.find?_cons_of_neg _ hna]
      simpa using ih

lemma Puzzle.firstMatch_nil (p : Puzzle) (w0 : Char) :
    p.firstMatch w0 [] = (p.firstCell w0).map fun yx => (yx, Direction.N) := by
  have hpred : (fun c : (Nat × Nat) × Direction =>
      p.cellDirMatches w0 [] c.1.2 c.1.1 c.2)
      = fun c => (fun yx : Nat × Nat =>
          decide (p.get_cell yx.2 yx.1 = some w0)) c.1 := by
    funext c
    simp [Puzzle.cellDirMatches, Puzzle.find_rest]
  show p.allCands.find? _ = _
  rw [hpred, Puzzle.allCands, find?_flatMap_const p.scan
    (fun yx : Nat × Nat => decide (p.get_cell yx.2 yx.1 = some w0))]
  rfl

/-- C10: a word of length one is matched the moment its letter is seen, with
an empty remainder, so `find_word` reports the first direction of the table —
N — at the first cell in row-major order holding that letter. -/
theorem find_word_single_letter (p : Puzzle) (w0 : Char) (y x : Nat)
    (h : p.firstCell w0 = some (y, x)) :
    p.find_word [w0] = .ok (locString .N x y) := by
  have hfm : p.firstMatch w0 [] = some ((y, x), .N) := by
    rw [p.firstMatch_nil, h]
    rfl
  rw [show ([w0] : List Char) = w0 :: [] from rfl, p.find_word_cons, hfm]

theorem find_word_single_letter_witness :
    catPuzzle.find_word ['X'] = .ok (locString .N 0 1) :=
  find_word_single_letter catPuzzle 'X' 1 0 (by decide)

/-! ### The remainder walk (C2) -/

/-- The spec-side success condition for the remainder walk: for every index
`i` into the remainder, the coordinate reached after `i + 1` unit steps of the
direction lies inside the N×N grid, and the cell stored there is the `i`-th
character of the remainder. -/
def Puzzle.walkSpec (p : Puzzle) (d : Direction) (x y : Int)
    (rest : List Char) : Prop :=
  ∀ i : Nat, i < rest.length →
    0 ≤ x + d.dx * (i + 1) ∧ x + d.dx * (i + 1) < (p.size : Int) ∧
    0 ≤ y + d.dy * (i + 1) ∧ y + d.dy * (i + 1) < (p.size : Int) ∧
    (p.rows.get? (y + d.dy * (i + 1)).toNat).bind
      (fun r => r.get? (x + d.dx * (i + 1)).toNat) = rest.get? i

instance (p : Puzzle) (d : Direction) (x y : Int) (rest : List Char) :
    Decidable (p.walkSpec d x y rest) := by
  unfold Puzzle.walkSpec
  exact Nat.decidableBallLT _ _

lemma Puzzle.walkSpec_cons (p : Puzzle) (d : Direction) (x y : Int)
    (c : Char) (rs : List Char) :
    p.walkSpec d x y (c :: rs) ↔
      p.get_cell (x + d.dx) (y + d.dy) = some c ∧
        p.walkSpec d (x + d.dx) (y + d.dy) rs := by
  have e0x : x + d.dx * (((0 : Nat) : Int) + 1) = x + d.dx := by
    push_cast
    ring
  have e0y : y + d.dy * (((0 : Nat) : Int) + 1) = y + d.dy := by
    push_cast
    ring
  have ex : ∀ i : Nat, x + d.dx * (((i + 1 : Nat) : Int) + 1)
      = (x + d.dx) + d.dx * ((i : Int) + 1) := by
    intro i
    push_cast
    ring
  have ey : ∀ i : Nat, y + d.dy * (((i + 1 : Nat) : Int) + 1)
      = (y + d.dy) + d.dy * ((i : Int) + 1) := by
    intro i
    push_cast
    ring
  constructor
  · intro h
    have h0 := h 0 (by simp)
    rw [e0x, e0y] at h0
    obtain ⟨h1, h2, h3, h4, h5⟩ := h0
    refine ⟨?_, ?_⟩
    · rw [p.get_cell_eq_some]
      exact ⟨h1, h2, h3, h4, by simpa using h5⟩
    · intro i hi
      have hsi := h (i + 1) (by simpa using Nat.succ_lt_succ hi)
      rw [ex i, ey i, List.get?_cons_succ] at hsi
      exact hsi
  · rintro ⟨hg, hws⟩ i hi
    cases i with
    | zero =>
      rw [p.get_cell_eq_some] at hg
      obtain ⟨h1, h2, h3, h4, h5⟩ := hg
      rw [e0x, e0y]
      exact ⟨h1, h2, h3, h4, by simpa using h5⟩
    | succ j =>
      have := hws j (by simpa using Nat.lt_of_succ_lt_succ hi)
      rw [ex j, ey j, List.get?_cons_succ]
      exact this

/-- C2: `find_rest` succeeds exactly when, taking one unit step of the
direction per character, every successive coordinate is inside the grid and
holds the corresponding character of the remainder; in particular a walk that
would leave the grid never matches. -/
theorem find_rest_iff_walkSpec (p : Puzzle) (d : Direction) :
    ∀ (rest : List Char) (x y : Int),
      (p.find_rest d x y rest = true ↔ p.walkSpec d x y rest) := by
  intro rest
  induction rest with
  | nil =>
    intro x y
    constructor
    · intro _ i hi
      exact absurd hi (by simp)
    · intro _
      rfl
  | cons c rs ih =>
    intro x y
    rw [Puzzle.walkSpec_cons]
    cases hg : p.get_cell (x + d.dx) (y + d.dy) with
    | none =>
      have hfr : p.find_rest d x y (c :: rs) = false := by
        simp [Puzzle.find_rest, hg]
      rw [hfr]
      constructor
      · intro h
        cases h
      · rintro ⟨hc, _⟩
        cases hc
    | some cell =>
      by_cases hc : cell = c
      · subst hc
        have hfr : p.find_rest d x y (cell :: rs)
            = p.find_rest d (x + d.dx) (y + d.dy) rs := by
          simp [Puzzle.find_rest, hg]
        rw [hfr, ih (x + d.dx) (y + d.dy)]
        simp [hg]
      · have hfr : p.find_rest d x y (c :: rs) = false := by
          simp [Puzzle.find_rest, hg, hc]
        rw [hfr]
        constructor
        · intro h
          cases h
        · rintro ⟨hcc, _⟩
          exact absurd (Option.some.inj hcc) hc

/-! ### Termination of the walk (C9) -/

/-- `find_rest` with an explicit recursion budget: `none` when the budget is
exhausted before the remainder is consumed, otherwise the result of the walk.
Each recursive call spends one unit and drops one character. -/
def Puzzle.find_rest_fuel (p : Puzzle) (d : Direction) :
    Nat → Int → Int → List Char → Option Bool
  | _, _, _, [] => some true
  | 0, _, _, _ :: _ => none
  | fuel + 1, x, y, c :: rs =>
    match p.get_cell (x + d.dx) (y + d.dy) with
    | none => some false
    | some cell =>
      if cell ≠ c then some false
      else p.find_rest_fuel d fuel (x + d.dx) (y + d.dy) rs

/-- C9: the remainder walk terminates within `rest.length` nested calls — a
budget equal to the length of the remainder is never exhausted, and the
bounded walk computes exactly `find_rest`.  (`find_word` and `solve` are
total Lean functions over the same definitions, so they terminate on every
grid and word list.) -/
theorem find_rest_fuel_length (p : Puzzle) (d : Direction) :
    ∀ (rest : List Char) (x y : Int),
      p.find_rest_fuel d rest.length x y rest
        = some (p.find_rest d x y rest) := by
  intro rest
  induction rest with
  | nil =>
    intro x y
    rfl
  | cons c rs ih =>
    intro x y
    show (match p.get_cell (x + d.dx) (y + d.dy) with
      | none => some false
      | some cell =>
        if cell ≠ c then some false
        else p.find_rest_fuel d rs.length (x + d.dx) (y + d.dy) rs) = _
    cases hg : p.get_cell (x + d.dx) (y + d.dy) with
    | none => simp [Puzzle.find_rest, hg]
    | some cell =>
      by_cases hc : cell = c
      · simp [Puzzle.find_rest, hg, hc, ih]
      · simp [Puzzle.find_rest, hg, hc]

/-! ### `solve` and validation (C3) -/

/-- C3: `solve` returns a Solution exactly when computing `find_word` for
each word in order succeeds and the resulting mapping is equal — as a
word-to-Location dict — to the answer key; a mismatch aborts with the
validation error instead of returning the computed mapping. -/
theorem solve_ok_iff (p : Puzzle) (words : List (List Char)) (key : Answers)
    (ans : Answers) :
    (p.solve words key = .ok ans ↔
      p.solveWords words = .ok ans ∧ dictEq ans key = true) ∧
    (p.solve words key = .error .validationMismatch ↔
      ∃ a, p.solveWords words = .ok a ∧ dictEq a key = false) := by
  unfold Puzzle.solve
  cases hs : p.solveWords words with
  | error e =>
    constructor
    · constructor
      · intro h
        cases h
      · rintro ⟨h, _⟩
        cases h
    · constructor
      · intro h
        cases h
      · rintro ⟨a, h, _⟩
        cases h
  | ok a =>
    rw [show (match (Except.ok a : Except PuzzleError Answers) with
      | Except.error e => (Except.error (SolveError.search e) :
          Except SolveError Answers)
      | Except.ok answers =>
        if dictEq answers key = true then Except.ok answers
        else Except.error SolveError.validationMismatch)
      = if dictEq a key = true then Except.ok a
        else Except.error SolveError.validationMismatch from rfl]
    by_cases hd : dictEq a key = true
    · rw [if_pos hd]
      constructor
      · constructor
        · intro h
          have := Except.ok.inj h
          subst this
          exact ⟨rfl, hd⟩
        · rintro ⟨h, _⟩
          have := Except.ok.inj h
          subst this
          rfl
      · constructor
        · intro h
          cases h
        · rintro ⟨a', h, hfalse⟩
          have := Except.ok.inj h
          subst this
          rw [hd] at hfalse
          cases hfalse
    · rw [if_neg hd]
      constructor
      · constructor
        · intro h
          cases h
        · rintro ⟨h, htrue⟩
          have := Except.ok.inj h
          subst this
          exact absurd htrue hd
      · constructor
        · intro _
          exact ⟨a, rfl, Bool.not_eq_true _ ▸ hd⟩
        · intro _
          rfl

/-! ### Totality of `get_cell` (C5) -/

/-- C5: `get_cell` is total — inside the square grid it returns the stored
character `rows[y][x]`, and at every other integer pair, negative coordinates
included, it returns the `None` sentinel rather than failing or wrapping
around. -/
theorem get_cell_total (p : Puzzle) (hsq : p.IsSquare) (x y : Int) :
    (0 ≤ x ∧ x < (p.size : Int) ∧ 0 ≤ y ∧ y < (p.size : Int) →
      ∃ c, p.get_cell x y = some c ∧
        (p.rows.get? y.toNat).bind (fun r => r.get? x.toNat) = some c) ∧
    (x < 0 ∨ y < 0 ∨ (p.size : Int) ≤ x ∨ (p.size : Int) ≤ y →
      p.get_cell x y = none) := by
  constructor
  · rintro ⟨h1, h2, h3, h4⟩
    have hy : y.toNat < p.rows.length := by
      show y.toNat < p.size
      omega
    obtain ⟨r, hr⟩ : ∃ r, p.rows.get? y.toNat = some r :=
      ⟨p.rows.get ⟨y.toNat, hy⟩, List.get?_eq_get hy⟩
    have hrmem : r ∈ p.rows := by
      exact List.get?_mem hr
    have hrlen : r.length = p.size := hsq r hrmem
    have hx : x.toNat < r.length := by
      rw [hrlen]
      omega
    obtain ⟨c, hcx⟩ : ∃ c, r.get? x.toNat = some c :=
      ⟨r.get ⟨x.toNat, hx⟩, List.get?_eq_get hx⟩
    refine ⟨c, ?_, ?_⟩
    · rw [p.get_cell_eq_some]
      refine ⟨h1, h2, h3, h4, ?_⟩
      rw [hr]
      exact hcx
    · rw [hr]
      simpa using hcx
  · intro hout
    unfold Puzzle.get_cell
    rw [if_pos hout]

theorem get_cell_total_witness :
    (∃ c, catPuzzle.get_cell 2 0 = some c ∧
      (catPuzzle.rows.get? (0 : Int).toNat).bind
        (fun r => r.get? (2 : Int).toNat) = some c) ∧
    catPuzzle.get_cell (-1) 0 = none :=
  ⟨(get_cell_total catPuzzle (by decide) 2 0).1 (by decide),
   (get_cell_total catPuzzle (by decide) (-1) 0).2 (by decide)⟩

theorem find_rest_iff_walkSpec_witness :
    catPuzzle.walkSpec .E 0 0 ['A', 'T'] :=
  (find_rest_iff_walkSpec catPuzzle .E ['A', 'T'] 0 0).mp (by decide)

theorem find_rest_fuel_length_witness :
    catPuzzle.find_rest_fuel .E 2 0 0 ['A', 'T']
      = some (catPuzzle.find_rest .E 0 0 ['A', 'T']) :=
  find_rest_fuel_length catPuzzle .E ['A', 'T'] 0 0

theorem solve_ok_iff_witness :
    catPuzzle.solve [['C', 'A', 'T']] [(['C', 'A', 'T'], "N @ (2, 2)")]
      = .error .validationMismatch :=
  (solve_ok_iff catPuzzle [['C', 'A', 'T']] [(['C', 'A', 'T'], "N @ (2, 2)")]
      []).2.mpr
    ⟨[(['C', 'A', 'T'], "E @ (1, 1)")], by rfl, by rfl⟩

/-! ### End-to-end example (C8) -/

/-- C8: on the 3×3 grid CAT / XXX / XXX, `find_word` locates CAT at
`"E @ (1, 1)"`, and raises the word-not-found error for DOG. -/
theorem catPuzzle_end_to_end :
    catPuzzle.find_word ['C', 'A', 'T'] = .ok "E @ (1, 1)" ∧
    catPuzzle.find_word ['D', 'O', 'G']
      = .error (.wordNotFound ['D', 'O', 'G']) :=
  ⟨rfl, rfl⟩
